import Mathlib

/-!
Shallow embedding of three embedding wrappers of a langchain snapshot:

* `langchain/embeddings/sagemaker_endpoint.py` — `SagemakerEndpointEmbeddings`
  with `validate_environment`, `_embedding_func`, `embed_documents` and
  `_embed_query`;
* `langchain/embeddings/tensorflow_hub.py` — `TensorflowHubEmbeddings` with
  `__init__`, `embed_documents` and `_embed_query`;
* `tests/integration_tests/vectorstores/fake_embeddings.py` — `FakeEmbeddings`.

Remote services and external libraries (boto3, the SageMaker runtime client,
the loaded tensorflow-hub model) are abstracted as function parameters; the
Python control flow, string normalization, chunking arithmetic and error
behaviour are translated faithfully.  Each modelled operation additionally
returns the list of backend invocations it performed, so that theorems can
speak about how many remote calls happen and with which arguments.
-/

set_option autoImplicit false

/-- Python `ValueError`, the only exception class raised by the modelled code
(both the zero-step `range` error and the wrapped inference-endpoint error
are `ValueError`s). -/
inductive PyErr where
  | valueError (msg : String)
deriving DecidableEq

/-- Model of Python `s.replace("\n", " ")`.  Since the pattern is a single
character, the replacement is a character-by-character map: every newline
becomes one space and every other character is kept. -/
def pyReplaceNewline (s : String) : String :=
  ⟨s.data.map (fun c => if c = '\n' then ' ' else c)⟩

/-- Boolean test for `Except.ok`. -/
def exceptOk {ε α : Type} : Except ε α → Bool
  | .ok _ => true
  | .error _ => false

deriving instance DecidableEq for Except

/-! ## FakeEmbeddings (tests/integration_tests/vectorstores/fake_embeddings.py)

`embed_documents` is the comprehension
`[[float(1.0)] * 9 + [float(i)] for i in range(len(texts))]`; `_embed_query`
returns `[float(1.0)] * 9 + [float(0.0)]`.  All produced floats are small
integers, represented exactly, so they are modelled as rationals. -/

/-- Model of `FakeEmbeddings.embed_documents`. -/
def FakeEmbeddings.embed_documents (texts : List String) : List (List ℚ) :=
  (List.range texts.length).map (fun (i : Nat) => List.replicate 9 (1 : ℚ) ++ [(i : ℚ)])

/-- Model of `FakeEmbeddings._embed_query`.  The text argument is unused by
the source. -/
def FakeEmbeddings.embedQuery (_text : String) : List ℚ :=
  List.replicate 9 (1 : ℚ) ++ [(0 : ℚ)]

/-! ## TensorflowHubEmbeddings (langchain/embeddings/tensorflow_hub.py)

The loaded model `self.embed` is a callable applied either to a bare Python
string (`self.embed(text)` in `_embed_query`) or to a list of strings
(`self.embed(texts)` in `embed_documents`); the argument shape is made
explicit with `TFInput`.  The model's return value after `.numpy().tolist()`
is a list of rows over an abstract value type `V`; `[0]` indexing is
`List.head?` (Python raises `IndexError` on an empty array). -/

/-- Argument shape handed to the loaded tensorflow-hub model: either a bare
string or a list of strings. -/
inductive TFInput where
  | scalar (s : String)
  | batch (ts : List String)
deriving DecidableEq

/-- Model of a constructed `TensorflowHubEmbeddings` instance: the loaded
model callable and the model url it was loaded from. -/
structure TensorflowHubEmbeddings (V : Type) where
  embed : TFInput → List V
  model_url : String

/-- Model of `TensorflowHubEmbeddings.embed_documents`: replace newlines in
every text, call the model once on the whole list, return its rows.  The
second component records the argument of the single model invocation. -/
def TensorflowHubEmbeddings.embed_documents {V : Type}
    (m : TensorflowHubEmbeddings V) (texts : List String) :
    List V × TFInput :=
  let ts := texts.map pyReplaceNewline
  (m.embed (TFInput.batch ts), TFInput.batch ts)

/-- Model of `TensorflowHubEmbeddings._embed_query`: replace newlines, call
the model on the bare string (the source passes `text`, not `[text]`), take
row `[0]` of the result.  The second component records the argument of the
single model invocation. -/
def TensorflowHubEmbeddings.embedQuery {V : Type}
    (m : TensorflowHubEmbeddings V) (text : String) :
    Option V × TFInput :=
  let t := pyReplaceNewline text
  ((m.embed (TFInput.scalar t)).head?, TFInput.scalar t)

/-! ## SagemakerEndpointEmbeddings (langchain/embeddings/sagemaker_endpoint.py) -/

/-- One recorded call to the SageMaker endpoint: the window of texts that
`_embedding_func` received (before newline normalization) and the request
body actually sent (`content_handler.transform_input` of the normalized
window). -/
structure Invocation (B : Type) where
  window : List String
  payload : B
deriving DecidableEq

/-- Model of a constructed `SagemakerEndpointEmbeddings` instance.
`client` abstracts `self.client.invoke_endpoint(EndpointName=..., Body=body,
ContentType=..., Accept=..., **_endpoint_kwargs)` together with
`response["Body"]`: the endpoint name, content type, accepts header and
`endpoint_kwargs` are fixed attributes of the instance and are absorbed into
the function; an exception from the call is `Except.error`.
`transform_input` and `transform_output` are the content handler's two
methods; `B` is the request-body type, `R` the raw response-body type, `E`
whatever `transform_output` returns for one window, `K` the type of
`model_kwargs` dictionaries. -/
structure SagemakerEndpointEmbeddings (B R E K : Type) where
  client : B → Except String R
  transform_input : List String → K → B
  transform_output : R → E
  model_kwargs : Option K
  emptyKwargs : K

namespace SagemakerEndpointEmbeddings

variable {B R E K : Type}

/-- The request body built for one window of texts: newlines replaced by
spaces, then `content_handler.transform_input(texts, _model_kwargs)` where
`_model_kwargs = self.model_kwargs or {}`. -/
def bodyOf (m : SagemakerEndpointEmbeddings B R E K) (texts : List String) : B :=
  m.transform_input (texts.map pyReplaceNewline) (m.model_kwargs.getD m.emptyKwargs)

/-- Model of `_embedding_func`: replace newlines in each text, build the
request body, invoke the endpoint; an exception `e` from the invocation is
re-raised as `ValueError(f"Error raised by inference endpoint: {e}")`,
otherwise the transformed output is returned.  The second component records
the single invocation performed. -/
def embeddingFunc (m : SagemakerEndpointEmbeddings B R E K) (texts : List String) :
    Except PyErr E × List (Invocation B) :=
  let ts := texts.map pyReplaceNewline
  let body := m.transform_input ts (m.model_kwargs.getD m.emptyKwargs)
  (match m.client body with
    | .error e => .error (.valueError ("Error raised by inference endpoint: " ++ e))
    | .ok r => .ok (m.transform_output r),
   [⟨texts, body⟩])

/-- The loop body of `embed_documents` for a positive step: Python's
`for i in range(0, len(texts), step)` over `texts[i : i + step]`, rendered on
the remaining suffix `rest = texts.drop i` (the loop guard `i < len(texts)`
is `rest ≠ []`, the slice `texts[i : i + step]` is `rest.take step`, and the
next iteration works on `rest.drop step`).  Each window's response is
appended (`results.append(response)`); an error aborts the loop at once.
The fuel argument only bounds the iteration count: `rest.length + 1` always
suffices for `step ≥ 1`. -/
def embedLoop (m : SagemakerEndpointEmbeddings B R E K) (step : Nat) :
    Nat → List String → Except PyErr (List E) × List (Invocation B)
  | _, [] => (.ok [], [])
  | 0, _ => (.ok [], [])
  | fuel + 1, rest =>
    match m.embeddingFunc (rest.take step) with
    | (.error e, tr) => (.error e, tr)
    | (.ok resp, tr) =>
      match m.embedLoop step fuel (rest.drop step) with
      | (.error e, tr2) => (.error e, tr ++ tr2)
      | (.ok l, tr2) => (.ok (resp :: l), tr ++ tr2)

/-- Model of `embed_documents(texts, chunk_size=64)`:
`_chunk_size = len(texts) if chunk_size > len(texts) else chunk_size`, then
`for i in range(0, len(texts), _chunk_size): results.append(self._embedding_func(texts[i : i + _chunk_size]))`.
A zero step makes Python's `range` raise
`ValueError("range() arg 3 must not be zero")` before any iteration; a
negative step with stop `len(texts) ≥ 0` yields an empty range, so the loop
body never runs and the empty `results` list is returned. -/
def embed_documents (m : SagemakerEndpointEmbeddings B R E K)
    (texts : List String) (chunk_size : Int) :
    Except PyErr (List E) × List (Invocation B) :=
  let c : Int := if chunk_size > (texts.length : Int) then (texts.length : Int) else chunk_size
  if c = 0 then (.error (.valueError "range() arg 3 must not be zero"), [])
  else if c < 0 then (.ok [], [])
  else m.embedLoop c.toNat (texts.length + 1) texts

/-- Model of `_embed_query`: `return self._embedding_func([text])`. -/
def embedQuery (m : SagemakerEndpointEmbeddings B R E K) (text : String) :
    Except PyErr E × List (Invocation B) :=
  m.embeddingFunc [text]

/-- Verification-side restatement of the loop: process an explicit list of
windows in order, appending each window's response and aborting on the first
error.  `embedLoop` is proved equal to `processWindows` of the chunk
partition. -/
def processWindows (m : SagemakerEndpointEmbeddings B R E K) :
    List (List String) → Except PyErr (List E) × List (Invocation B)
  | [] => (.ok [], [])
  | w :: ws =>
    match m.embeddingFunc w with
    | (.error e, tr) => (.error e, tr)
    | (.ok resp, tr) =>
      match m.processWindows ws with
      | (.error e, tr2) => (.error e, tr ++ tr2)
      | (.ok l, tr2) => (.ok (resp :: l), tr ++ tr2)

end SagemakerEndpointEmbeddings

/-! ## Spec-side chunk partition -/

/-- Fuel-driven chunking: split a list into contiguous windows of `step`
elements, the last window possibly shorter.  The fuel bounds the recursion;
`xs.length` fuel suffices when `step ≥ 1`. -/
def chunksAux {α : Type} (step : Nat) : Nat → List α → List (List α)
  | _, [] => []
  | 0, _ => []
  | fuel + 1, xs => xs.take step :: chunksAux step fuel (xs.drop step)

/-- The partition of a list into contiguous non-overlapping windows of size
`step`, the last window possibly shorter (the spec's description of the
chunking performed by `embed_documents`). -/
def specChunks {α : Type} (step : Nat) (xs : List α) : List (List α) :=
  chunksAux step xs.length xs

/-- Fuel-driven window-size sequence of `chunksAux` as a function of the
list length alone. -/
def sizesAux (step : Nat) : Nat → Nat → List Nat
  | _, 0 => []
  | 0, _ => []
  | fuel + 1, n + 1 => min step (n + 1) :: sizesAux step fuel (n + 1 - step)

/-- The sequence of window sizes produced when a list of `n` elements is
split into windows of `step` elements. -/
def windowSizes (step n : Nat) : List Nat :=
  sizesAux step n n

/-- The chunk windows that `embed_documents` builds for a given `chunk_size`
and text list: contiguous windows of `min chunk_size (len texts)` texts. -/
def windowsOf (chunk_size : Int) (texts : List String) : List (List String) :=
  specChunks (min chunk_size.toNat texts.length) texts

/-! ## Concrete instances used to evaluate the model -/

/-- A concrete SageMaker instance whose content handler passes the text
window through unchanged and whose client echoes the request body; the
output transform wraps each text of the window in a one-element vector, so
one response carries one entry per text of its window. -/
def echoHandler :
    SagemakerEndpointEmbeddings (List String) (List String) (List (List String)) Unit where
  client := fun b => .ok b
  transform_input := fun ts _ => ts
  transform_output := fun r => r.map (fun t => [t])
  model_kwargs := none
  emptyKwargs := ()

/-- A concrete SageMaker instance whose client fails exactly on the request
body `["b"]` and echoes every other body. -/
def failingHandler :
    SagemakerEndpointEmbeddings (List String) (List String) (List String) Unit where
  client := fun b => if b = ["b"] then .error "boom" else .ok b
  transform_input := fun ts _ => ts
  transform_output := fun r => r
  model_kwargs := none
  emptyKwargs := ()

/-- A tensorflow-hub model that distinguishes a bare string from a
one-element batch: every scalar invocation yields the single row `1`, every
batch invocation yields the row `2` per batch element. -/
def tfDistinguish : TensorflowHubEmbeddings Nat where
  embed := fun
    | .scalar _ => [1]
    | .batch ts => ts.map (fun _ => 2)
  model_url := "https://tfhub.dev/google/universal-sentence-encoder-multilingual/3"

/-- A tensorflow-hub model that treats a bare string exactly like the
one-element batch containing it: each row is the length of the
corresponding input string. -/
def tfUniform : TensorflowHubEmbeddings Nat where
  embed := fun
    | .scalar s => [s.length]
    | .batch ts => ts.map String.length
  model_url := "https://tfhub.dev/google/universal-sentence-encoder-multilingual/3"

/-! ## Construction-time validation -/

/-- The environment seen by `SagemakerEndpointEmbeddings.validate_environment`:
whether `import boto3` succeeds, and the combined
`boto3.Session(...).client("sagemaker-runtime", region_name=...)` resolution,
which either yields a usable client handle of type `C` or raises. -/
structure AwsEnv (C : Type) where
  boto3Available : Bool
  resolveClient : Option String → String → Except String C

/-- The `ValueError` message of `validate_environment` when `import boto3`
fails. -/
def boto3ImportMsg : String :=
  "Could not import boto3 python package. Please it install it with `pip install boto3`."

/-- The `ValueError` message of `validate_environment` when credential or
client resolution fails. -/
def credentialsMsg : String :=
  "Could not load credentials to authenticate with AWS client. Please check that credentials in the specified profile name are valid."

/-- Model of the `validate_environment` root validator: import boto3 (else
`ValueError` with the import message), resolve the session and client from
the credentials profile and region (else `ValueError` with the credentials
message), and store the client handle in the values. -/
def validate_environment {C : Type} (env : AwsEnv C)
    (credentials_profile_name : Option String) (region_name : String) :
    Except String C :=
  if env.boto3Available then
    match env.resolveClient credentials_profile_name region_name with
    | .ok c => .ok c
    | .error _ => .error credentialsMsg
  else
    .error boto3ImportMsg

/-- Pydantic construction of `SagemakerEndpointEmbeddings`: the root
validator runs once at construction; if it raises, no instance exists,
otherwise the returned instance carries the resolved client handle. -/
def mkSagemakerEndpointEmbeddings {B R E K : Type}
    (env : AwsEnv (B → Except String R))
    (credentials_profile_name : Option String) (region_name : String)
    (transform_input : List String → K → B) (transform_output : R → E)
    (model_kwargs : Option K) (emptyKwargs : K) :
    Except String (SagemakerEndpointEmbeddings B R E K) :=
  match validate_environment env credentials_profile_name region_name with
  | .error e => .error e
  | .ok c =>
    .ok { client := c, transform_input := transform_input,
          transform_output := transform_output, model_kwargs := model_kwargs,
          emptyKwargs := emptyKwargs }

/-- Exceptions that `tensorflow_hub.load(self.model_url)` may raise: an
`ImportError` (which the surrounding `try` of `__init__` catches) or any
other exception (bad url, network failure, tensorflow error), which that
`except ImportError` clause does not catch. -/
inductive TfLoadError where
  | importError (msg : String)
  | otherError (msg : String)
deriving DecidableEq

/-- Errors escaping `TensorflowHubEmbeddings.__init__`: either the
descriptive `ValueError` it raises for an `ImportError`, or a
non-ImportError exception from `tensorflow_hub.load` propagated out
unwrapped. -/
inductive TfInitError where
  | valueError (msg : String)
  | propagated (msg : String)
deriving DecidableEq

/-- The environment seen by `TensorflowHubEmbeddings.__init__`: whether
`import tensorflow_hub` and `import tensorflow_text` succeed, and
`tensorflow_hub.load` as a fallible function from the model url to the
loaded model callable. -/
structure TfEnv (V : Type) where
  packagesAvailable : Bool
  load : String → Except TfLoadError (TFInput → List V)

/-- The `ValueError` message of `TensorflowHubEmbeddings.__init__` on an
`ImportError` (the source concatenates two adjacent string literals with no
space in between). -/
def tfImportMsg : String :=
  "Could not import some python packages.Please install them."

/-- Model of `TensorflowHubEmbeddings.__init__`: inside one `try`, import
the packages and load the model from `model_url`; the `except ImportError`
clause turns an `ImportError` — from the imports or from the load — into the
descriptive `ValueError`, while any other exception raised by
`tensorflow_hub.load` propagates out of `__init__` unwrapped.  On success
the instance's `embed` attribute is the loaded model. -/
def mkTensorflowHubEmbeddings {V : Type} (env : TfEnv V) (model_url : String) :
    Except TfInitError (TensorflowHubEmbeddings V) :=
  if env.packagesAvailable then
    match env.load model_url with
    | .ok f => .ok { embed := f, model_url := model_url }
    | .error (.importError _) => .error (.valueError tfImportMsg)
    | .error (.otherError msg) => .error (.propagated msg)
  else
    .error (.valueError tfImportMsg)

/-- An AWS environment where boto3 is available and client resolution
succeeds with an echoing client. -/
def awsEnvGood : AwsEnv (List String → Except String (List String)) where
  boto3Available := true
  resolveClient := fun _ _ => .ok (fun b => .ok b)

/-- An AWS environment where boto3 is not importable. -/
def awsEnvNoBoto3 : AwsEnv (List String → Except String (List String)) where
  boto3Available := false
  resolveClient := fun _ _ => .ok (fun b => .ok b)

/-- An AWS environment where boto3 imports but credential resolution
raises. -/
def awsEnvBadCreds : AwsEnv (List String → Except String (List String)) where
  boto3Available := true
  resolveClient := fun _ _ => .error "NoCredentialsError"

/-- A tensorflow environment with the packages available, whose load
succeeds with `tfUniform.embed` for every url. -/
def tfEnvGood : TfEnv Nat where
  packagesAvailable := true
  load := fun _ => .ok tfUniform.embed

/-- A tensorflow environment missing the required packages. -/
def tfEnvMissing : TfEnv Nat where
  packagesAvailable := false
  load := fun _ => .ok tfUniform.embed

/-- A tensorflow environment whose packages import fine but whose model load
raises an `ImportError` (caught and wrapped by `__init__`). -/
def tfEnvLoadImportErr : TfEnv Nat where
  packagesAvailable := true
  load := fun _ => .error (.importError "No module named tensorflow")

/-- A tensorflow environment whose packages import fine but whose model load
raises a non-ImportError exception (which `__init__` does not catch). -/
def tfEnvLoadRaises : TfEnv Nat where
  packagesAvailable := true
  load := fun _ => .error (.otherError "OSError: unresolvable model url")

/-! ## Helper lemmas -/

namespace SagemakerEndpointEmbeddings

variable {B R E K : Type}

/-- The fuel-driven loop of `embed_documents` computes exactly the
window-list processing of the fuel-driven chunk partition. -/
theorem embedLoop_eq_processWindows (m : SagemakerEndpointEmbeddings B R E K)
    (step : Nat) :
    ∀ (fuel : Nat) (rest : List String),
      m.embedLoop step fuel rest = m.processWindows (chunksAux step fuel rest) := by
  intro fuel
  induction fuel with
  | zero =>
    intro rest
    cases rest <;> rfl
  | succ f ih =>
    intro rest
    cases rest with
    | nil => rfl
    | cons x l =>
      have ihd := ih ((x :: l).drop step)
      simp only [embedLoop, chunksAux, processWindows]
      rw [ihd]

/-- The trace of one `_embedding_func` call is the single recorded
invocation of its window with the request body built from the normalized
window. -/
theorem embeddingFunc_trace (m : SagemakerEndpointEmbeddings B R E K)
    (texts : List String) :
    (m.embeddingFunc texts).2 = [⟨texts, m.bodyOf texts⟩] := rfl

/-- When the client answers every body, `processWindows` succeeds with one
response per window and records one invocation per window, in order. -/
theorem processWindows_ok (m : SagemakerEndpointEmbeddings B R E K)
    (f : B → R) (hc : ∀ b, m.client b = Except.ok (f b)) :
    ∀ ws : List (List String),
      m.processWindows ws =
        (Except.ok (ws.map (fun w => m.transform_output (f (m.bodyOf w)))),
         ws.map (fun w => ⟨w, m.bodyOf w⟩)) := by
  intro ws
  induction ws with
  | nil => rfl
  | cons w rest ih =>
    have hf : m.embeddingFunc w =
        (Except.ok (m.transform_output (f (m.bodyOf w))), [⟨w, m.bodyOf w⟩]) := by
      simp [embeddingFunc, bodyOf, hc]
    simp [processWindows, hf, ih]

/-- When the client succeeds on the bodies of all windows before index `k`
and raises on the body of window `k`, `processWindows` raises the wrapped
inference-endpoint error and its trace is exactly the first `k + 1`
windows. -/
theorem processWindows_err (m : SagemakerEndpointEmbeddings B R E K) :
    ∀ (ws : List (List String)) (k : Nat) (hk : k < ws.length) (err : String),
      (∀ j (hj : j < ws.length), j < k →
        exceptOk (m.client (m.bodyOf (ws.get ⟨j, hj⟩))) = true) →
      m.client (m.bodyOf (ws.get ⟨k, hk⟩)) = Except.error err →
      m.processWindows ws =
        (Except.error (PyErr.valueError ("Error raised by inference endpoint: " ++ err)),
         (ws.take (k + 1)).map (fun w => ⟨w, m.bodyOf w⟩)) := by
  intro ws
  induction ws with
  | nil =>
    intro k hk
    exact absurd hk (by simp)
  | cons w rest ih =>
    intro k hk err hbefore herr
    cases k with
    | zero =>
      have hw : m.client (m.bodyOf w) = Except.error err := herr
      simp only [bodyOf] at hw
      have hf : m.embeddingFunc w =
          (Except.error (PyErr.valueError ("Error raised by inference endpoint: " ++ err)),
           [⟨w, m.bodyOf w⟩]) := by
        simp [embeddingFunc, bodyOf, hw]
      simp [processWindows, hf]
    | succ k' =>
      have h0 : exceptOk (m.client (m.bodyOf w)) = true :=
        hbefore 0 (by simp) (Nat.succ_pos k')
      obtain ⟨r, hr⟩ : ∃ r, m.client (m.bodyOf w) = Except.ok r := by
        cases hcl : m.client (m.bodyOf w) with
        | error e => rw [hcl] at h0; exact absurd h0 (by simp [exceptOk])
        | ok r => exact ⟨r, rfl⟩
      have hr' := hr
      simp only [bodyOf] at hr'
      have hf : m.embeddingFunc w =
          (Except.ok (m.transform_output r), [⟨w, m.bodyOf w⟩]) := by
        simp [embeddingFunc, bodyOf, hr']
      have hk' : k' < rest.length := by simpa using hk
      have hrec := ih k' hk' err
        (fun j hj hjk => by
          have := hbefore (j + 1) (by simpa using hj) (Nat.succ_lt_succ hjk)
          simpa using this)
        (by simpa using herr)
      simp [processWindows, hf, hrec]

end SagemakerEndpointEmbeddings

/-- The fuel of `chunksAux` is irrelevant as soon as it covers the list
length (for a positive step). -/
theorem chunksAux_congr {α : Type} (step : Nat) (hs : 1 ≤ step) :
    ∀ (f1 f2 : Nat) (xs : List α), xs.length ≤ f1 → xs.length ≤ f2 →
      chunksAux step f1 xs = chunksAux step f2 xs := by
  intro f1
  induction f1 with
  | zero =>
    intro f2 xs h1 _
    have hx : xs = [] := List.eq_nil_of_length_eq_zero (Nat.le_zero.mp h1)
    subst hx
    cases f2 <;> rfl
  | succ f ih =>
    intro f2 xs h1 h2
    cases xs with
    | nil => cases f2 <;> rfl
    | cons x l =>
      cases f2 with
      | zero => exact absurd h2 (by simp)
      | succ f2' =>
        simp only [chunksAux]
        congr 1
        have hd : ((x :: l).drop step).length = (x :: l).length - step :=
          List.length_drop step (x :: l)
        have hlen : (x :: l).length = l.length + 1 := by simp
        apply ih
        · rw [hd]; simp only [List.length_cons] at h1 ⊢; omega
        · rw [hd]; simp only [List.length_cons] at h2 ⊢; omega

/-- The window sizes of the fuel-driven chunking depend only on the list
length. -/
theorem chunksAux_map_length {α : Type} (step : Nat) :
    ∀ (fuel : Nat) (xs : List α),
      (chunksAux step fuel xs).map List.length = sizesAux step fuel xs.length := by
  intro fuel
  induction fuel with
  | zero => intro xs; cases xs <;> rfl
  | succ f ih =>
    intro xs
    cases xs with
    | nil => rfl
    | cons x l =>
      simp only [chunksAux, List.map_cons, List.length_cons, sizesAux]
      congr 1
      · simp [List.length_take]
      · rw [ih ((x :: l).drop step), List.length_drop]
        simp

namespace SagemakerEndpointEmbeddings

variable {B R E K : Type}

/-- For a non-empty text list and a chunk size of at least one,
`embed_documents` is exactly the in-order processing of the contiguous
windows of `min chunk_size (len texts)` texts. -/
theorem embed_documents_pos (m : SagemakerEndpointEmbeddings B R E K)
    (texts : List String) (cs : Int) (h0 : texts ≠ []) (h1 : 1 ≤ cs) :
    m.embed_documents texts cs =
      m.processWindows (specChunks (min cs.toNat texts.length) texts) := by
  have hn : 1 ≤ texts.length := List.length_pos.mpr h0
  have hc : (if cs > (texts.length : Int) then (texts.length : Int) else cs) =
      ((min cs.toNat texts.length : Nat) : Int) := by
    split <;> omega
  have hstep : 1 ≤ min cs.toNat texts.length := by omega
  simp only [embed_documents, hc]
  have h2 : ¬ (((min cs.toNat texts.length : Nat) : Int) = 0) := by omega
  have h3 : ¬ (((min cs.toNat texts.length : Nat) : Int) < 0) := by omega
  rw [if_neg h2, if_neg h3, Int.toNat_natCast,
    embedLoop_eq_processWindows m (min cs.toNat texts.length) (texts.length + 1) texts]
  congr 1
  exact chunksAux_congr (min cs.toNat texts.length) hstep (texts.length + 1)
    texts.length texts (by omega) (by omega)

/-- Every invocation recorded by the loop sends as payload the request body
built from its own window. -/
theorem embedLoop_payload (m : SagemakerEndpointEmbeddings B R E K) (step : Nat) :
    ∀ (fuel : Nat) (rest : List String) (inv : Invocation B),
      inv ∈ (m.embedLoop step fuel rest).2 → inv.payload = m.bodyOf inv.window := by
  intro fuel
  induction fuel with
  | zero =>
    intro rest inv hmem
    cases rest <;> simp [embedLoop] at hmem
  | succ f ih =>
    intro rest inv hmem
    cases rest with
    | nil => simp [embedLoop] at hmem
    | cons x l =>
      simp only [embedLoop] at hmem
      cases hf : m.embeddingFunc ((x :: l).take step) with
      | mk r tr =>
        have htr : tr = [⟨(x :: l).take step, m.bodyOf ((x :: l).take step)⟩] := by
          have := m.embeddingFunc_trace ((x :: l).take step)
          rw [hf] at this
          exact this
        cases r with
        | error e =>
          rw [hf] at hmem
          simp only at hmem
          rw [htr] at hmem
          simp at hmem
          rw [hmem]
        | ok resp =>
          rw [hf] at hmem
          cases hrec : m.embedLoop step f ((x :: l).drop step) with
          | mk r2 tr2 =>
            rw [hrec] at hmem
            cases r2 with
            | error e =>
              simp only [List.mem_append] at hmem
              rcases hmem with hmem | hmem
              · rw [htr] at hmem; simp at hmem; rw [hmem]
              · exact ih _ inv (by rw [hrec]; exact hmem)
            | ok l2 =>
              simp only [List.mem_append] at hmem
              rcases hmem with hmem | hmem
              · rw [htr] at hmem; simp at hmem; rw [hmem]
              · exact ih _ inv (by rw [hrec]; exact hmem)

/-- Every invocation recorded by `embed_documents` sends as payload the
request body built from its own window. -/
theorem embed_documents_payload (m : SagemakerEndpointEmbeddings B R E K)
    (texts : List String) (cs : Int) (inv : Invocation B)
    (hmem : inv ∈ (m.embed_documents texts cs).2) :
    inv.payload = m.bodyOf inv.window := by
  by_cases h2 : (if cs > (texts.length : Int) then (texts.length : Int) else cs) = 0
  · simp only [embed_documents] at hmem
    rw [if_pos h2] at hmem
    simp at hmem
  · by_cases h3 : (if cs > (texts.length : Int) then (texts.length : Int) else cs) < 0
    · simp only [embed_documents] at hmem
      rw [if_neg h2, if_pos h3] at hmem
      simp at hmem
    · simp only [embed_documents] at hmem
      rw [if_neg h2, if_neg h3] at hmem
      exact m.embedLoop_payload _ _ _ inv hmem

end SagemakerEndpointEmbeddings

/-! ## Claim theorems -/

/-- C1.  The claim says `embed_documents` returns one embedding per input
text, per-window results concatenated into one flat list.  The code instead
does `results.append(response)` per window: with five texts and
`chunk_size=2` it returns a three-element list, one entry per window, each
entry holding that whole window's response — not five flat embeddings. -/
theorem sagemaker_embed_documents_nests_per_window :
    (echoHandler.embed_documents ["a", "b", "c", "d", "e"] 2).1 =
      Except.ok [[["a"], ["b"]], [["c"], ["d"]], [["e"]]] ∧
    ([[["a"], ["b"]], [["c"], ["d"]], [["e"]]] : List (List (List String))).length = 3 ∧
    ¬ (3 = (["a", "b", "c", "d", "e"] : List String).length) := by
  decide

/-- C2.  The claim says `embed_documents([])` returns `[]` with zero remote
invocations.  With the default `chunk_size=64` and no texts the code computes
`_chunk_size = 0` and `range(0, 0, 0)` raises
`ValueError("range() arg 3 must not be zero")`: zero invocations happen, but
a `ValueError` is raised instead of returning `[]`. -/
theorem sagemaker_embed_documents_empty_raises :
    echoHandler.embed_documents [] 64 =
      (Except.error (PyErr.valueError "range() arg 3 must not be zero"), []) := by
  decide

/-- C7.  `_embed_query` is exactly `_embedding_func([text])`: one invocation
through the same normalization, input-transform and output-transform path as
a window of `embed_documents`, returning that single window's response. -/
theorem sagemaker_query_single_window {B R E K : Type}
    (m : SagemakerEndpointEmbeddings B R E K) (text : String) :
    m.embedQuery text = m.embeddingFunc [text] ∧
    (m.embedQuery text).2 = [⟨[text], m.bodyOf [text]⟩] ∧
    (m.embedQuery text).2.length = 1 :=
  ⟨rfl, rfl, rfl⟩

/-- C10.  For a non-empty text list, a negative `chunk_size` silently yields
an empty result list with zero invocations (Python's `range` with a negative
step and stop `len(texts) ≥ 0` is empty), while `chunk_size = 0` raises the
zero-step `range` error. -/
theorem negative_chunk_size_silent_empty {B R E K : Type}
    (m : SagemakerEndpointEmbeddings B R E K) (texts : List String) (cs : Int)
    (h0 : texts ≠ []) (hneg : cs < 0) :
    m.embed_documents texts cs = (Except.ok [], []) ∧
    m.embed_documents texts 0 =
      (Except.error (PyErr.valueError "range() arg 3 must not be zero"), []) := by
  have hn : 1 ≤ texts.length := List.length_pos.mpr h0
  constructor
  · have h2 : ¬ ((if cs > (texts.length : Int) then (texts.length : Int) else cs) = 0) := by
      split <;> omega
    have h3 : (if cs > (texts.length : Int) then (texts.length : Int) else cs) < 0 := by
      split <;> omega
    simp only [SagemakerEndpointEmbeddings.embed_documents]
    rw [if_neg h2, if_pos h3]
  · have h2 : (if (0 : Int) > (texts.length : Int) then (texts.length : Int) else 0) = 0 := by
      split <;> omega
    simp only [SagemakerEndpointEmbeddings.embed_documents]
    rw [if_pos h2]

/-- Witness for the negative-chunk-size behaviour at a concrete input. -/
theorem negative_chunk_size_silent_empty_witness :
    echoHandler.embed_documents ["a"] (-3) = (Except.ok [], []) ∧
    echoHandler.embed_documents ["a"] 0 =
      (Except.error (PyErr.valueError "range() arg 3 must not be zero"), []) :=
  negative_chunk_size_silent_empty echoHandler ["a"] (-3) (by decide) (by decide)

/-- C6.  `FakeEmbeddings.embed_documents` returns one vector per text, each
of dimension ten: nine ones followed by the index of the text, in input
order; `_embed_query` returns nine ones followed by zero. -/
theorem fake_embeddings_shape (texts : List String) (t : String) :
    (FakeEmbeddings.embed_documents texts).length = texts.length ∧
    (∀ i, i < texts.length →
      (FakeEmbeddings.embed_documents texts)[i]? =
        some (List.replicate 9 (1 : ℚ) ++ [(i : ℚ)])) ∧
    (∀ v, v ∈ FakeEmbeddings.embed_documents texts → v.length = 10) ∧
    FakeEmbeddings.embedQuery t = List.replicate 9 (1 : ℚ) ++ [(0 : ℚ)] := by
  refine ⟨?_, ?_, ?_, rfl⟩
  · unfold FakeEmbeddings.embed_documents
    rw [List.length_map, List.length_range]
  · intro i hi
    unfold FakeEmbeddings.embed_documents
    rw [List.getElem?_map, List.getElem?_range hi]
    rfl
  · intro v hv
    unfold FakeEmbeddings.embed_documents at hv
    rw [List.mem_map] at hv
    obtain ⟨i, _, rfl⟩ := hv
    rw [List.length_append, List.length_replicate]
    rfl

/-- Witness for the fake-embedding shape at the spec's concrete example. -/
theorem fake_embeddings_shape_witness :
    (2 < (["a", "b", "c"] : List String).length ∧
      (FakeEmbeddings.embed_documents ["a", "b", "c"])[2]? =
        some (List.replicate 9 (1 : ℚ) ++ [((2 : Nat) : ℚ)])) ∧
    FakeEmbeddings.embedQuery "x" = List.replicate 9 (1 : ℚ) ++ [(0 : ℚ)] :=
  ⟨⟨by decide, (fake_embeddings_shape ["a", "b", "c"] "x").2.1 2 (by decide)⟩,
   (fake_embeddings_shape ["a", "b", "c"] "x").2.2.2⟩

/-- C8 counterexample.  The claim says `_embed_query` invokes the loaded
model with a one-element batch and therefore equals the sole element of
`embed_documents([text])`.  On a model that distinguishes a bare string from
a one-element batch, the code's invocation argument is the bare string and
the two results differ. -/
theorem tf_query_scalar_not_batch :
    (tfDistinguish.embedQuery "x").2 ≠ TFInput.batch ["x"] ∧
    (tfDistinguish.embedQuery "x").1 ≠ ((tfDistinguish.embed_documents ["x"]).1).head? := by
  decide

/-- C8 amended.  `_embed_query` normalizes the text and invokes the model
with the bare normalized string — not a one-element batch — returning row
zero of the result; whenever the model maps a bare string to the same rows
as the one-element batch containing it, the query embedding coincides with
the sole element of `embed_documents([text])`. -/
theorem tf_query_scalar_invocation {V : Type}
    (m : TensorflowHubEmbeddings V) (text : String) :
    (m.embedQuery text).2 = TFInput.scalar (pyReplaceNewline text) ∧
    (m.embedQuery text).1 = (m.embed (TFInput.scalar (pyReplaceNewline text))).head? ∧
    ((∀ s, m.embed (TFInput.scalar s) = m.embed (TFInput.batch [s])) →
      (m.embedQuery text).1 = ((m.embed_documents [text]).1).head?) := by
  refine ⟨rfl, rfl, ?_⟩
  intro h
  show (m.embed (TFInput.scalar (pyReplaceNewline text))).head? = _
  rw [h]
  rfl

/-- Witness for the amended C8 on a model treating a bare string like the
one-element batch containing it. -/
theorem tf_query_scalar_invocation_witness :
    (tfUniform.embedQuery "a\nb").1 = ((tfUniform.embed_documents ["a\nb"]).1).head? :=
  (tf_query_scalar_invocation tfUniform "a\nb").2.2 (fun _ => rfl)

/-- C3.  For a non-empty text list and `chunk_size ≥ 1`, with an endpoint
that answers every request, `embed_documents` issues exactly one invocation
per window of the partition of the input into contiguous non-overlapping
windows of `min chunk_size (len texts)` texts (last window possibly
shorter); in particular five texts with `chunk_size=2` give three
invocations with window sizes `[2, 2, 1]`, and three texts with
`chunk_size=64` give one invocation with window size `3`. -/
theorem sagemaker_embed_documents_chunking {B R E K : Type}
    (m : SagemakerEndpointEmbeddings B R E K) (texts : List String) (cs : Int)
    (f : B → R) (h0 : texts ≠ []) (h1 : 1 ≤ cs)
    (hc : ∀ b, m.client b = Except.ok (f b)) :
    ((m.embed_documents texts cs).2).map Invocation.window =
      specChunks (min cs.toNat texts.length) texts ∧
    ((m.embed_documents texts cs).2).map (fun inv => inv.window.length) =
      windowSizes (min cs.toNat texts.length) texts.length ∧
    (texts.length = 5 → cs = 2 →
      ((m.embed_documents texts cs).2).length = 3 ∧
      ((m.embed_documents texts cs).2).map (fun inv => inv.window.length) = [2, 2, 1]) ∧
    (texts.length = 3 → cs = 64 →
      ((m.embed_documents texts cs).2).length = 1 ∧
      ((m.embed_documents texts cs).2).map (fun inv => inv.window.length) = [3]) := by
  have hpos := m.embed_documents_pos texts cs h0 h1
  have hok := m.processWindows_ok f hc (specChunks (min cs.toNat texts.length) texts)
  have htrace : (m.embed_documents texts cs).2 =
      (specChunks (min cs.toNat texts.length) texts).map
        (fun w => ⟨w, m.bodyOf w⟩) := by
    rw [hpos, hok]
  have hwin : ((m.embed_documents texts cs).2).map Invocation.window =
      specChunks (min cs.toNat texts.length) texts := by
    rw [htrace, List.map_map]
    exact List.map_id _
  have hsz : ((m.embed_documents texts cs).2).map (fun inv => inv.window.length) =
      windowSizes (min cs.toNat texts.length) texts.length := by
    rw [htrace, List.map_map]
    exact chunksAux_map_length (min cs.toNat texts.length) texts.length texts
  have hlen : ((m.embed_documents texts cs).2).length =
      (windowSizes (min cs.toNat texts.length) texts.length).length := by
    rw [← hsz, List.length_map]
  refine ⟨hwin, hsz, ?_, ?_⟩
  · intro hl hcs
    subst hcs
    have hmin : min (2 : Int).toNat texts.length = 2 := by rw [hl]; decide
    constructor
    · rw [hlen, hmin, hl]; decide
    · rw [hsz, hmin, hl]; decide
  · intro hl hcs
    subst hcs
    have hmin : min (64 : Int).toNat texts.length = 3 := by rw [hl]; decide
    constructor
    · rw [hlen, hmin, hl]; decide
    · rw [hsz, hmin, hl]; decide

/-- Witness for the chunking behaviour at the spec's two concrete
examples. -/
theorem sagemaker_embed_documents_chunking_witness :
    ((echoHandler.embed_documents ["a", "b", "c", "d", "e"] 2).2).map
      (fun inv => inv.window.length) = [2, 2, 1] ∧
    ((echoHandler.embed_documents ["a", "b", "c"] 64).2).map
      (fun inv => inv.window.length) = [3] :=
  ⟨((sagemaker_embed_documents_chunking echoHandler ["a", "b", "c", "d", "e"] 2
      (fun b => b) (by decide) (by decide) (fun _ => rfl)).2.2.1 rfl rfl).2,
   ((sagemaker_embed_documents_chunking echoHandler ["a", "b", "c"] 64
      (fun b => b) (by decide) (by decide) (fun _ => rfl)).2.2.2 rfl rfl).2⟩

/-- C4.  Every text is passed to the backend with newlines replaced by
spaces: every recorded SageMaker invocation's payload is the input transform
of its normalized window (in `embed_documents` and in `_embed_query`), the
tensorflow-hub model is invoked on the normalized batch in `embed_documents`
and on the normalized bare string in `_embed_query`, and the normalization
leaves no newline character behind. -/
theorem newline_normalized_before_backend {B R E K V : Type}
    (m : SagemakerEndpointEmbeddings B R E K) (tf : TensorflowHubEmbeddings V)
    (texts : List String) (text : String) (cs : Int) :
    (∀ inv, inv ∈ (m.embed_documents texts cs).2 →
      inv.payload =
        m.transform_input (inv.window.map pyReplaceNewline)
          (m.model_kwargs.getD m.emptyKwargs)) ∧
    (m.embedQuery text).2 =
      [⟨[text], m.transform_input [pyReplaceNewline text]
          (m.model_kwargs.getD m.emptyKwargs)⟩] ∧
    (tf.embed_documents texts).2 = TFInput.batch (texts.map pyReplaceNewline) ∧
    (tf.embedQuery text).2 = TFInput.scalar (pyReplaceNewline text) ∧
    (∀ s : String, '\n' ∉ (pyReplaceNewline s).data) := by
  refine ⟨?_, rfl, rfl, rfl, ?_⟩
  · intro inv hmem
    exact m.embed_documents_payload texts cs inv hmem
  · intro s hmem
    have hmem' : '\n' ∈ s.data.map (fun c => if c = '\n' then ' ' else c) := hmem
    rw [List.mem_map] at hmem'
    obtain ⟨c, _, hc⟩ := hmem'
    by_cases h : c = '\n'
    · rw [if_pos h] at hc
      exact absurd hc (by decide)
    · rw [if_neg h] at hc
      exact h hc

/-- Witness for newline normalization at a concrete newline-carrying
input. -/
theorem newline_normalized_before_backend_witness :
    (echoHandler.embedQuery "a\nb").2 = [⟨["a\nb"], ["a b"]⟩] ∧
    (tfUniform.embedQuery "a\nb").2 = TFInput.scalar "a b" := by
  have h := newline_normalized_before_backend echoHandler tfUniform ["x"] "a\nb" 64
  refine ⟨?_, ?_⟩
  · have h1 := h.2.1
    rw [show pyReplaceNewline "a\nb" = "a b" from by decide] at h1
    exact h1
  · have h1 := h.2.2.2.1
    rw [show pyReplaceNewline "a\nb" = "a b" from by decide] at h1
    exact h1

/-- C5.  If the endpoint answers the first `k` windows and raises on window
`k`, `embed_documents` raises the wrapped inference-endpoint `ValueError`
immediately: no result list is produced, and exactly the first `k + 1`
windows were invoked — the remaining windows are never sent. -/
theorem sagemaker_error_aborts_batch {B R E K : Type}
    (m : SagemakerEndpointEmbeddings B R E K) (texts : List String) (cs : Int)
    (k : Nat) (err : String) (h0 : texts ≠ []) (h1 : 1 ≤ cs)
    (hk : k < (windowsOf cs texts).length)
    (hbefore : ∀ j (hj : j < (windowsOf cs texts).length), j < k →
      exceptOk (m.client (m.bodyOf ((windowsOf cs texts).get ⟨j, hj⟩))) = true)
    (herr : m.client (m.bodyOf ((windowsOf cs texts).get ⟨k, hk⟩)) = Except.error err) :
    m.embed_documents texts cs =
      (Except.error (PyErr.valueError ("Error raised by inference endpoint: " ++ err)),
       ((windowsOf cs texts).take (k + 1)).map (fun w => ⟨w, m.bodyOf w⟩)) := by
  have hpos := m.embed_documents_pos texts cs h0 h1
  rw [hpos]
  exact m.processWindows_err (windowsOf cs texts) k hk err hbefore herr

/-- Witness for the abort-on-error behaviour: the client fails on window 2
of 3, the call raises the wrapped error, and only windows 1 and 2 were
invoked. -/
theorem sagemaker_error_aborts_batch_witness :
    failingHandler.embed_documents ["a", "b", "c"] 1 =
      (Except.error (PyErr.valueError "Error raised by inference endpoint: boom"),
       [⟨["a"], ["a"]⟩, ⟨["b"], ["b"]⟩]) := by
  have h := sagemaker_error_aborts_batch failingHandler ["a", "b", "c"] 1 1 "boom"
    (by decide) (by decide) (by decide) (by decide) (by decide)
  rw [h]
  decide

/-- C9 counterexample.  The claim says that when model resolution fails,
construction raises a descriptive configuration error.  When
`tensorflow_hub.load` raises a non-ImportError exception, the
`except ImportError` clause of `__init__` does not catch it: construction
fails with the original exception propagated unwrapped, which is not a
descriptive `ValueError` at all. -/
theorem construction_load_error_unwrapped :
    mkTensorflowHubEmbeddings tfEnvLoadRaises "bad-url" =
      Except.error (TfInitError.propagated "OSError: unresolvable model url") ∧
    (match mkTensorflowHubEmbeddings tfEnvLoadRaises "bad-url" with
      | Except.error (TfInitError.valueError _) => true
      | _ => false) = false :=
  ⟨rfl, rfl⟩

/-- C9 amended.  Configuration validation happens once, at construction.  A
missing boto3 package, a failing credential/session resolution, or an
`ImportError` during the tensorflow package import or model load make
construction raise the descriptive `ValueError` and no instance exists; a
non-ImportError failure of `tensorflow_hub.load` also aborts construction
with no instance, but the original exception propagates unwrapped instead of
the descriptive error.  A successful construction yields an instance whose
client (resp. loaded model) handle is exactly the one resolved at
construction time — there is no partially configured instance, and every
later operation is a function of the constructed record alone. -/
theorem construction_validates_once {B R E K V : Type}
    (env : AwsEnv (B → Except String R)) (tfenv : TfEnv V)
    (profile : Option String) (region : String)
    (ti : List String → K → B) (tout : R → E) (mkw : Option K) (ek : K)
    (url : String) :
    (env.boto3Available = false →
      mkSagemakerEndpointEmbeddings env profile region ti tout mkw ek =
        Except.error boto3ImportMsg) ∧
    (∀ e, env.boto3Available = true →
      env.resolveClient profile region = Except.error e →
      mkSagemakerEndpointEmbeddings env profile region ti tout mkw ek =
        Except.error credentialsMsg) ∧
    (∀ c, env.boto3Available = true →
      env.resolveClient profile region = Except.ok c →
      mkSagemakerEndpointEmbeddings env profile region ti tout mkw ek =
        Except.ok { client := c, transform_input := ti, transform_output := tout,
                    model_kwargs := mkw, emptyKwargs := ek }) ∧
    (∀ m, mkSagemakerEndpointEmbeddings env profile region ti tout mkw ek =
        Except.ok m →
      ∃ c, env.resolveClient profile region = Except.ok c ∧ m.client = c) ∧
    (tfenv.packagesAvailable = false →
      mkTensorflowHubEmbeddings tfenv url =
        Except.error (TfInitError.valueError tfImportMsg)) ∧
    (∀ msg, tfenv.packagesAvailable = true →
      tfenv.load url = Except.error (TfLoadError.importError msg) →
      mkTensorflowHubEmbeddings tfenv url =
        Except.error (TfInitError.valueError tfImportMsg)) ∧
    (∀ msg, tfenv.packagesAvailable = true →
      tfenv.load url = Except.error (TfLoadError.otherError msg) →
      mkTensorflowHubEmbeddings tfenv url =
        Except.error (TfInitError.propagated msg)) ∧
    (∀ m, mkTensorflowHubEmbeddings tfenv url = Except.ok m →
      ∃ f, tfenv.load url = Except.ok f ∧ m.embed = f ∧ m.model_url = url) := by
  refine ⟨?_, ?_, ?_, ?_, ?_, ?_, ?_, ?_⟩
  · intro h
    simp [mkSagemakerEndpointEmbeddings, validate_environment, h]
  · intro e hb he
    simp [mkSagemakerEndpointEmbeddings, validate_environment, hb, he]
  · intro c hb hok
    simp [mkSagemakerEndpointEmbeddings, validate_environment, hb, hok]
  · intro m hm
    cases hb : env.boto3Available with
    | false =>
      simp [mkSagemakerEndpointEmbeddings, validate_environment, hb] at hm
    | true =>
      cases hres : env.resolveClient profile region with
      | error e =>
        simp [mkSagemakerEndpointEmbeddings, validate_environment, hb, hres] at hm
      | ok c =>
        simp [mkSagemakerEndpointEmbeddings, validate_environment, hb, hres] at hm
        exact ⟨c, rfl, by rw [← hm]⟩
  · intro h
    simp [mkTensorflowHubEmbeddings, h]
  · intro msg hav hload
    simp [mkTensorflowHubEmbeddings, hav, hload]
  · intro msg hav hload
    simp [mkTensorflowHubEmbeddings, hav, hload]
  · intro m hm
    cases hav : tfenv.packagesAvailable with
    | false => simp [mkTensorflowHubEmbeddings, hav] at hm
    | true =>
      cases hload : tfenv.load url with
      | error e =>
        cases e <;> simp [mkTensorflowHubEmbeddings, hav, hload] at hm
      | ok f =>
        simp [mkTensorflowHubEmbeddings, hav, hload] at hm
        exact ⟨f, rfl, by rw [← hm], by rw [← hm]⟩

/-- Witness for construction-time validation on concrete environments: good
and bad AWS environments, missing tensorflow packages, a load raising an
`ImportError` (wrapped) and a load raising another exception (propagated
unwrapped). -/
theorem construction_validates_once_witness :
    mkSagemakerEndpointEmbeddings awsEnvNoBoto3 none "us-west-2"
        (fun ts _ => ts) (fun r => r) none () = Except.error boto3ImportMsg ∧
    mkSagemakerEndpointEmbeddings awsEnvBadCreds none "us-west-2"
        (fun ts _ => ts) (fun r => r) none () = Except.error credentialsMsg ∧
    mkSagemakerEndpointEmbeddings awsEnvGood none "us-west-2"
        (fun ts _ => ts) (fun r => r) none () =
      Except.ok { client := fun b => Except.ok b,
                  transform_input := fun ts _ => ts,
                  transform_output := fun r => r,
                  model_kwargs := none, emptyKwargs := () } ∧
    mkTensorflowHubEmbeddings tfEnvMissing "url" =
      Except.error (TfInitError.valueError tfImportMsg) ∧
    mkTensorflowHubEmbeddings tfEnvLoadImportErr "url" =
      Except.error (TfInitError.valueError tfImportMsg) ∧
    mkTensorflowHubEmbeddings tfEnvLoadRaises "url" =
      Except.error (TfInitError.propagated "OSError: unresolvable model url") ∧
    (∃ f, tfEnvGood.load "url" = Except.ok f ∧
      ({ embed := tfUniform.embed, model_url := "url" } :
        TensorflowHubEmbeddings Nat).embed = f ∧
      ({ embed := tfUniform.embed, model_url := "url" } :
        TensorflowHubEmbeddings Nat).model_url = "url") :=
  ⟨(construction_validates_once awsEnvNoBoto3 tfEnvMissing none "us-west-2"
      (fun ts _ => ts) (fun r => r) none () "url").1 rfl,
   (construction_validates_once awsEnvBadCreds tfEnvMissing none "us-west-2"
      (fun ts _ => ts) (fun r => r) none () "url").2.1 "NoCredentialsError" rfl rfl,
   (construction_validates_once awsEnvGood tfEnvMissing none "us-west-2"
      (fun ts _ => ts) (fun r => r) none () "url").2.2.1 (fun b => Except.ok b) rfl rfl,
   (construction_validates_once awsEnvGood tfEnvMissing none "us-west-2"
      (fun ts _ => ts) (fun r => r) none () "url").2.2.2.2.1 rfl,
   (construction_validates_once awsEnvGood tfEnvLoadImportErr none "us-west-2"
      (fun ts _ => ts) (fun r => r) none () "url").2.2.2.2.2.1
      "No module named tensorflow" rfl rfl,
   (construction_validates_once awsEnvGood tfEnvLoadRaises none "us-west-2"
      (fun ts _ => ts) (fun r => r) none () "url").2.2.2.2.2.2.1
      "OSError: unresolvable model url" rfl rfl,
   (construction_validates_once awsEnvGood tfEnvGood none "us-west-2"
      (fun ts _ => ts) (fun r => r) none () "url").2.2.2.2.2.2.2
      { embed := tfUniform.embed, model_url := "url" } rfl⟩
